import Mathlib

/-!
Verification of the MedBridge scheduling and booking consistency engine

A shallow embedding of the scheduling core of `src/server.py`:
slot generation from a doctor's weekly schedule windows, reconciliation
against external-calendar busy intervals, the booking transaction's
validation chain, and the appointment lifecycle operations
(cancel / reschedule) with their ownership check.

Modelling conventions:

* All clinic-local times are whole minutes (`Int`).  For a single-date
  computation, times are minutes relative to that date's local midnight:
  a schedule window `"HH:MM-HH:MM"` becomes a pair of minute values in
  `[0, 1440)`, and the external calendar's busy intervals and the lead
  cutoff `now + MIN_LEAD_MINUTES` are minutes on the same axis (they may
  lie outside `[0, 1440)`).  Python `datetime` comparisons used by the
  source are order-isomorphic to `Int` comparisons on this common axis.
* A generated slot's `strftime("%H:%M")` rendering is represented by its
  start minute: all slots of one computation lie in `[0, 1440)` of the
  same date, where the rendering is injective.
* The external calendar gateway is an oracle argument: a free/busy query
  is an `Except Unit (List (Int × Int))` (`error` = the query raised),
  an event fetch is an `Except Unit CalEvent`, an insert is an
  `Except String String`.  Each distinct query made by the source is a
  distinct oracle argument, reflecting that the calendar may change (or
  fail) between queries.
* Date parsing, weekday formatting and the `invalid_date` branch of the
  source are not modelled: inputs arrive already split into windows,
  an `isToday` flag and minute values, which is the data the source
  computes from its string inputs before the logic under verification.
-/

namespace MedBridge

/-- A schedule window `"HH:MM-HH:MM"`, parsed to (start, end) minutes. -/
abbrev Window := Int × Int

/-- `_overlaps` from `server.py`: the slot `[slotStart, slotEnd)` overlaps
some busy interval, with half-open semantics
`slot_start < busy_end and slot_end > busy_start`. -/
def _overlaps (slotStart slotEnd : Int) (busy : List (Int × Int)) : Bool :=
  busy.any fun b => decide (slotStart < b.2) && decide (slotEnd > b.1)

/-- The window-tiling loop of `_compute_free_slots_for_date`:
`cursor` starts at the window start and advances by `dur` while
`cursor + dur ≤ wend`, emitting `(cursor, cursor + dur)`.  The loop of the
source advances the cursor by `dur` each iteration, so for `0 < dur` it runs
at most `(wend - start).toNat` times; `fuel` is that bound (the source loop
does not terminate for `dur ≤ 0`, a case no caller reaches and every claim
excludes by hypothesis). -/
def tileGo (dur : Int) : Nat → Int → Int → List (Int × Int)
  | 0, _, _ => []
  | fuel + 1, cursor, wend =>
    if 0 < dur ∧ cursor + dur ≤ wend then
      (cursor, cursor + dur) :: tileGo dur fuel (cursor + dur) wend
    else []

/-- Candidate slots tiled from one window, as in the source's inner
`while` loop. -/
def tileWindow (wstart wend dur : Int) : List (Int × Int) :=
  tileGo dur (wend - wstart).toNat wstart wend

/-- `slot_ranges` as accumulated by the source's `for win in windows` loop:
the concatenation, in window order, of each window's tiling. -/
def slotRanges (dur : Int) : List Window → List (Int × Int)
  | [] => []
  | w :: ws => tileWindow w.1 w.2 dur ++ slotRanges dur ws

/-- The free-slot filter of `_compute_free_slots_for_date`: drop a candidate
if the date is today and it starts before the lead cutoff, or if it overlaps
a busy interval; keep the start minute (the `"%H:%M"` rendering). -/
def freeList (windows : List Window) (dur : Int) (isToday : Bool) (cutoff : Int)
    (busy : List (Int × Int)) : List Int :=
  ((slotRanges dur windows).filter fun r =>
    (!(isToday && decide (r.1 < cutoff))) && (!_overlaps r.1 r.2 busy)).map Prod.fst

/-- `any_future_candidates` of the source: some candidate survives the
lead-time cutoff (`not is_today or rng[0] >= now + lead`). -/
def anyFutureCandidate (windows : List Window) (dur : Int) (isToday : Bool)
    (cutoff : Int) : Bool :=
  (slotRanges dur windows).any fun r => (!isToday) || decide (cutoff ≤ r.1)

/-- `_compute_free_slots_for_date` from `server.py`, for one date.
`windows` is `weekly_schedule[day_name]` parsed to minute pairs, `fb` the
free/busy query outcome over the day's window envelope.  Returns the free
start minutes and the optional `(code, warning)` metadata of the source. -/
def _compute_free_slots_for_date (windows : List Window) (dur : Int)
    (isToday : Bool) (cutoff : Int) (fb : Except Unit (List (Int × Int))) :
    List Int × Option (String × String) :=
  if windows.isEmpty then
    ([], some ("no_schedule", "No clinic hours for this day"))
  else
    match fb with
    | .error _ => ([], some ("freebusy_error", "Calendar free/busy query failed"))
    | .ok busy =>
      if (freeList windows dur isToday cutoff busy).isEmpty then
        ([], some (if anyFutureCandidate windows dur isToday cutoff
                   then "fully_booked" else "no_future_slots",
                   "No available slots for the selected day"))
      else (freeList windows dur isToday cutoff busy, none)

/-- The single-date response assembled by `availability_tool`: the slot list
plus the metadata propagated as `warning_code` / `warning` fields. -/
structure AvailabilityResponse where
  slots : List Int
  warning_code : Option String
  warning : Option String
deriving DecidableEq

/-- `availability_tool` on a single date (no `end_date`). -/
def availability_tool_single (windows : List Window) (dur : Int) (isToday : Bool)
    (cutoff : Int) (fb : Except Unit (List (Int × Int))) : AvailabilityResponse :=
  let r := _compute_free_slots_for_date windows dur isToday cutoff fb
  { slots := r.1, warning_code := r.2.map Prod.fst, warning := r.2.map Prod.snd }

/-- The date-range loop of `availability_tool`: one entry per day `d`,
keeping only the slot list (`slots, _meta_unused = ...`).  Days are absolute
day numbers; `sched d` is the schedule-window list for day `d`'s weekday,
`nowLead` is `now + lead` in absolute minutes, and `fb d` returns that day's
busy intervals relative to its own midnight. -/
def availability_range_go (sched : Int → List Window) (dur : Int)
    (today nowLead : Int) (fb : Int → Except Unit (List (Int × Int))) :
    Int → Nat → List (Int × List Int)
  | _, 0 => []
  | d, n + 1 =>
    (d, (_compute_free_slots_for_date (sched d) dur (d == today)
          (nowLead - d * 1440) (fb d)).1) ::
      availability_range_go sched dur today nowLead fb (d + 1) n

/-- `availability_tool` with an `end_date`: swap a reversed range, then map
each day of the inclusive range to its free slots, discarding the per-day
metadata. -/
def availability_tool_range (sched : Int → List Window) (startD endD dur : Int)
    (today nowLead : Int) (fb : Int → Except Unit (List (Int × Int))) :
    List (Int × List Int) :=
  let s := if endD < startD then endD else startD
  let e := if endD < startD then startD else endD
  availability_range_go sched dur today nowLead fb s ((e - s).toNat + 1)

/-- Characters after the last `'@'`, as in Python `email.split("@")[-1]`. -/
def afterLastAt (l : List Char) : List Char :=
  (l.reverse.takeWhile fun c => !(c == '@')).reverse

/-- The booking tool's structural email check:
`"@" in patient_email and "." in patient_email.split("@")[-1]`. -/
def validEmail (e : String) : Bool :=
  e.toList.contains '@' && (afterLastAt e.toList).contains '.'

/-- `_within_schedule` from `server.py`: some window of the start date's
weekday fully contains `[startM, endM]`
(`start_local >= w_start and end_local <= w_end`). -/
def _within_schedule (windows : List Window) (startM endM : Int) : Bool :=
  windows.any fun w => decide (w.1 ≤ startM) && decide (endM ≤ w.2)

/-- `_slot_conflicts_with_calendar` from `server.py`: a fresh free/busy
query over exactly `[startM, endM]`; if the query raises, the source is
"conservative and says it conflicts to avoid double bookings". -/
def _slot_conflicts_with_calendar (fb : Except Unit (List (Int × Int)))
    (startM endM : Int) : Bool :=
  match fb with
  | .error _ => true
  | .ok busy => _overlaps startM endM busy

/-- Outcome of `appointment_book_tool`, one constructor per distinct
returned dictionary of the source (error strings abbreviated to tags). -/
inductive BookResult where
  | errUnknownDoctor : BookResult
  | errEndNotAfterStart : BookResult
  | errInvalidEmail : BookResult
  | errLeadTime : BookResult
  /-- "Selected time is outside clinic hours for this doctor." -/
  | errOutsideHours : BookResult
  /-- "Requested time is no longer available. Please pick another slot." -/
  | errConflict : BookResult
  /-- "Requested time is not an available slot for this doctor/day. ..." -/
  | errNotListedSlot : BookResult
  | errInsert (msg : String) : BookResult
  | booked (eventId : String) : BookResult
deriving DecidableEq

/-- `appointment_book_tool` from `server.py`.  `startM`/`endM` are minutes
relative to the start date's midnight, `cutoff` is `now + MIN_LEAD_MINUTES`
on the same axis, `isToday` says whether the start date is today.  `fbPre`
is the preflight free/busy query over `[startM, endM]`; `fbGuard` the
separate free/busy query made by the recomputed-availability guard;
`insert` the final outcome of the event insert (with its
conference-stripping retry already folded in).  The guard's `try/except`
cannot raise in this model, so its `pass` escape is not reachable. -/
def appointment_book_tool (doctorFound : Bool) (windows : List Window)
    (startM endM : Int) (patientEmail : String) (cutoff : Int) (isToday : Bool)
    (fbPre fbGuard : Except Unit (List (Int × Int)))
    (insert : Except String String) : BookResult :=
  if !doctorFound then .errUnknownDoctor
  else if endM ≤ startM then .errEndNotAfterStart
  else if !validEmail patientEmail then .errInvalidEmail
  else if startM < cutoff then .errLeadTime
  else if !_within_schedule windows startM endM then .errOutsideHours
  else if _slot_conflicts_with_calendar fbPre startM endM then .errConflict
  else if !((_compute_free_slots_for_date windows (endM - startM) isToday cutoff
              fbGuard).1.contains startM) then .errNotListedSlot
  else
    match insert with
    | .error e => .errInsert e
    | .ok id => .booked id

/-- A calendar event as used by the lifecycle tools: the provider-assigned
id plus the fields `reschedule_tool` carries through its `update` body
(`ev["end"]` is `stop` here, `end` being reserved). -/
structure CalEvent where
  id : String
  summary : String
  description : String
  attendees : List String
  start : Int
  stop : Int
deriving DecidableEq

/-- Lowercase then trim, as the ownership check applies to both the
patient's email and each attendee email
(`str(...).lower().strip()`). -/
def normEmail (e : String) : List Char :=
  ((e.toList.map Char.toLower).dropWhile Char.isWhitespace).reverse.dropWhile
    Char.isWhitespace |>.reverse

/-- Python's substring test `needle in hay` on character lists. -/
def subListB (needle : List Char) : List Char → Bool
  | [] => needle.isEmpty
  | c :: cs => leadsWith needle (c :: cs) || subListB needle cs
where
  /-- `needle` is a prefix of the second list. -/
  leadsWith : List Char → List Char → Bool
    | [], _ => true
    | _ :: _, [] => false
    | a :: as, b :: bs => a == b && leadsWith as bs

/-- `_event_contains_patient` from `server.py`: false for an empty patient
email; otherwise an exact match of the normalized patient email against
each normalized attendee email, with a fallback substring search of the
normalized patient email in the lowercased description. -/
def _event_contains_patient (ev : CalEvent) (patientEmail : String) : Bool :=
  if patientEmail = "" then false
  else
    let pe := normEmail patientEmail
    if ev.attendees.any fun a => normEmail a == pe then true
    else subListB pe (ev.description.toList.map Char.toLower)

/-- Outcome of `cancel_appointment_tool`. -/
inductive CancelResult where
  | errUnknownDoctor : CancelResult
  /-- "Cancel error: ..." (the get or delete call raised). -/
  | errCancel : CancelResult
  /-- "Unauthorized: event does not belong to the requesting patient." -/
  | errUnauthorized : CancelResult
  | ok : CancelResult
deriving DecidableEq

/-- `cancel_appointment_tool` from `server.py`: fetch the event, check
ownership, delete.  `getEvent` and `del` are the two provider calls. -/
def cancel_appointment_tool (doctorFound : Bool)
    (getEvent : Except Unit CalEvent) (patientEmail : String)
    (del : Except Unit Unit) : CancelResult :=
  if !doctorFound then .errUnknownDoctor
  else
    match getEvent with
    | .error _ => .errCancel
    | .ok ev =>
      if !_event_contains_patient ev patientEmail then .errUnauthorized
      else
        match del with
        | .error _ => .errCancel
        | .ok _ => .ok

/-- Outcome of `reschedule_tool`.  `rescheduled eventId body` records the
provider `update` call: the event id it targets and the body it sends. -/
inductive RescheduleResult where
  | errUnknownDoctor : RescheduleResult
  | errLeadTime : RescheduleResult
  | errOutsideHours : RescheduleResult
  /-- "Requested time is no longer available. Please pick another slot." -/
  | errConflict : RescheduleResult
  /-- "Unauthorized: event does not belong to the requesting patient." -/
  | errUnauthorized : RescheduleResult
  /-- "Reschedule error: ..." (the get call raised). -/
  | errProvider : RescheduleResult
  | rescheduled (eventId : String) (body : CalEvent) : RescheduleResult
deriving DecidableEq

/-- `reschedule_tool` from `server.py`: re-run the booking validation
(lead time, schedule containment, fresh conflict check) on the new
interval, fetch the event, check ownership, then update the same event id
with only its start/end replaced. -/
def reschedule_tool (doctorFound : Bool) (windows : List Window)
    (eventId : String) (startM endM : Int) (patientEmail : String)
    (cutoff : Int) (fb : Except Unit (List (Int × Int)))
    (getEvent : Except Unit CalEvent) : RescheduleResult :=
  if !doctorFound then .errUnknownDoctor
  else if startM < cutoff then .errLeadTime
  else if !_within_schedule windows startM endM then .errOutsideHours
  else if _slot_conflicts_with_calendar fb startM endM then .errConflict
  else
    match getEvent with
    | .error _ => .errProvider
    | .ok ev =>
      if !_event_contains_patient ev patientEmail then .errUnauthorized
      else .rescheduled eventId { ev with start := startM, stop := endM }

/-- The ownership predicate exactly as claim C10 words it, for the
refinement comparison against the implementation: the patient's email
(lowercased, trimmed) equals some attendee's email *exactly* (the attendee
email taken as stored), or occurs as a substring of the lowercased
description. -/
def claimedOwnership (ev : CalEvent) (patientEmail : String) : Prop :=
  patientEmail ≠ "" ∧
    ((∃ a ∈ ev.attendees, a.toList = normEmail patientEmail) ∨
      normEmail patientEmail <:+: ev.description.toList.map Char.toLower)

/-! Helper lemmas: the tiling loop -/

/-- Unfolding the tiling loop once when the guard holds and fuel remains. -/
lemma tileGo_succ (dur : Int) (fuel : Nat) (cursor wend : Int) :
    tileGo dur (fuel + 1) cursor wend =
      if 0 < dur ∧ cursor + dur ≤ wend then
        (cursor, cursor + dur) :: tileGo dur fuel (cursor + dur) wend
      else [] := rfl

/-- With enough fuel, membership of the tiling loop's output is exactly the
arithmetic progression of slots that fit in the window. -/
lemma mem_tileGo {dur : Int} (hdur : 0 < dur) :
    ∀ (fuel : Nat) (cursor wend : Int), (wend - cursor).toNat ≤ fuel →
      ∀ p : Int × Int,
        (p ∈ tileGo dur fuel cursor wend ↔
          ∃ k : Nat, p.1 = cursor + k * dur ∧ p.2 = p.1 + dur ∧ p.2 ≤ wend) := by
  intro fuel
  induction fuel with
  | zero =>
    intro cursor wend hfuel p
    simp only [tileGo, List.not_mem_nil, false_iff]
    rintro ⟨k, h1, h2, h3⟩
    have hk : (0 : Int) ≤ (k : Int) * dur :=
      mul_nonneg (Int.natCast_nonneg k) hdur.le
    omega
  | succ n ih =>
    intro cursor wend hfuel p
    rw [tileGo_succ]
    by_cases hg : 0 < dur ∧ cursor + dur ≤ wend
    · rw [if_pos hg]
      have hrec := ih (cursor + dur) wend (by omega) p
      simp only [List.mem_cons, hrec]
      constructor
      · rintro (rfl | ⟨k, h1, h2, h3⟩)
        · exact ⟨0, by simp, rfl, hg.2⟩
        · refine ⟨k + 1, ?_, h2, h3⟩
          push_cast
          linarith
      · rintro ⟨k, h1, h2, h3⟩
        cases k with
        | zero =>
          left
          have : p.1 = cursor := by simpa using h1
          have : p = (cursor, cursor + dur) := by
            apply Prod.ext <;> simp [this, ← h2, this ▸ h2]
          exact this
        | succ k =>
          right
          refine ⟨k, ?_, h2, h3⟩
          push_cast at h1
          linarith
    · rw [if_neg hg]
      simp only [List.not_mem_nil, false_iff]
      rintro ⟨k, h1, h2, h3⟩
      have hk : (0 : Int) ≤ (k : Int) * dur :=
        mul_nonneg (Int.natCast_nonneg k) hdur.le
      exact hg ⟨hdur, by omega⟩

/-- Membership characterization of one window's tiling: exactly the slots
`(wstart + k·dur, wstart + (k+1)·dur)` whose end fits in the window. -/
lemma mem_tileWindow {dur : Int} (hdur : 0 < dur) (wstart wend : Int)
    (p : Int × Int) :
    p ∈ tileWindow wstart wend dur ↔
      ∃ k : Nat, p.1 = wstart + k * dur ∧ p.2 = p.1 + dur ∧ p.2 ≤ wend :=
  mem_tileGo hdur _ wstart wend le_rfl p

/-- Every tiled slot sits inside its window and has length `dur`. -/
lemma tileWindow_bounds {dur : Int} (hdur : 0 < dur) {wstart wend : Int}
    {p : Int × Int} (hp : p ∈ tileWindow wstart wend dur) :
    wstart ≤ p.1 ∧ p.2 = p.1 + dur ∧ p.2 ≤ wend := by
  obtain ⟨k, h1, h2, h3⟩ := (mem_tileWindow hdur wstart wend p).1 hp
  have hk : (0 : Int) ≤ (k : Int) * dur :=
    mul_nonneg (Int.natCast_nonneg k) hdur.le
  exact ⟨by omega, h2, h3⟩

/-- Slots tiled from one window are pairwise non-overlapping
(half-open semantics). -/
lemma tileGo_pairwise {dur : Int} (hdur : 0 < dur) :
    ∀ (fuel : Nat) (cursor wend : Int), (wend - cursor).toNat ≤ fuel →
      (tileGo dur fuel cursor wend).Pairwise
        fun p q => ¬(p.1 < q.2 ∧ q.1 < p.2) := by
  intro fuel
  induction fuel with
  | zero => intro cursor wend _; simp [tileGo]
  | succ n ih =>
    intro cursor wend hfuel
    rw [tileGo_succ]
    by_cases hg : 0 < dur ∧ cursor + dur ≤ wend
    · rw [if_pos hg]
      refine List.Pairwise.cons ?_ (ih (cursor + dur) wend (by omega))
      intro q hq
      obtain ⟨k, h1, h2, h3⟩ :=
        (mem_tileGo hdur n (cursor + dur) wend (by omega) q).1 hq
      have hk : (0 : Int) ≤ (k : Int) * dur :=
        mul_nonneg (Int.natCast_nonneg k) hdur.le
      simp only [not_and, not_lt]
      intro _
      omega
    · rw [if_neg hg]; exact List.Pairwise.nil

/-- Pairwise non-overlap of `tileWindow`. -/
lemma tileWindow_pairwise {dur : Int} (hdur : 0 < dur) (wstart wend : Int) :
    (tileWindow wstart wend dur).Pairwise
      fun p q => ¬(p.1 < q.2 ∧ q.1 < p.2) :=
  tileGo_pairwise hdur _ wstart wend le_rfl

/-- `slotRanges` is the union, in order, of the windows' tilings. -/
lemma mem_slotRanges (dur : Int) (windows : List Window) (p : Int × Int) :
    p ∈ slotRanges dur windows ↔
      ∃ w ∈ windows, p ∈ tileWindow w.1 w.2 dur := by
  induction windows with
  | nil => simp [slotRanges]
  | cons w ws ih => simp [slotRanges, List.mem_append, ih]

/-! Helper lemmas: the availability resolver -/

/-- `_overlaps` decides exactly the half-open overlap predicate. -/
lemma overlaps_iff (s e : Int) (busy : List (Int × Int)) :
    _overlaps s e busy = true ↔ ∃ b ∈ busy, s < b.2 ∧ e > b.1 := by
  simp [_overlaps]

/-- On a successful free/busy query, the slot list returned by
`_compute_free_slots_for_date` is the filtered candidate list (both empty
branches return the then-empty filter result). -/
lemma compute_fst_ok (windows : List Window) (dur : Int) (isToday : Bool)
    (cutoff : Int) (busy : List (Int × Int)) :
    (_compute_free_slots_for_date windows dur isToday cutoff (.ok busy)).1 =
      freeList windows dur isToday cutoff busy := by
  unfold _compute_free_slots_for_date
  by_cases hw : windows.isEmpty
  · rw [if_pos hw]
    have hnil : windows = [] := by simpa using hw
    subst hnil
    simp [freeList, slotRanges]
  · rw [if_neg hw]
    dsimp only
    by_cases hf : (freeList windows dur isToday cutoff busy).isEmpty
    · rw [if_pos hf]
      have : freeList windows dur isToday cutoff busy = [] := by simpa using hf
      simp [this]
    · rw [if_neg hf]

/-- On a failed free/busy query the slot list is empty. -/
lemma compute_fst_error (windows : List Window) (dur : Int) (isToday : Bool)
    (cutoff : Int) :
    (_compute_free_slots_for_date windows dur isToday cutoff (.error ())).1 = [] := by
  unfold _compute_free_slots_for_date
  by_cases hw : windows.isEmpty
  · rw [if_pos hw]
  · rw [if_neg hw]

/-- Membership in the free-slot list: a start minute is reported free iff
it is the start of a candidate that survives the lead-time filter and
overlaps no busy interval. -/
lemma mem_freeList (windows : List Window) (dur : Int) (isToday : Bool)
    (cutoff : Int) (busy : List (Int × Int)) (s : Int) :
    s ∈ freeList windows dur isToday cutoff busy ↔
      ∃ r ∈ slotRanges dur windows, r.1 = s ∧
        ¬(isToday = true ∧ s < cutoff) ∧ _overlaps r.1 r.2 busy = false := by
  unfold freeList
  simp only [List.mem_map, List.mem_filter, Bool.and_eq_true, Bool.not_eq_true',
    Bool.and_eq_false_iff, decide_eq_false_iff_not]
  constructor
  · rintro ⟨r, ⟨hr, hlead, hover⟩, rfl⟩
    refine ⟨r, hr, rfl, ?_, hover⟩
    rcases hlead with h | h
    · rintro ⟨ht, _⟩; exact absurd ht (by simpa using h)
    · rintro ⟨_, hs⟩; exact h hs
  · rintro ⟨r, hr, rfl, hlead, hover⟩
    refine ⟨r, ⟨hr, ?_, hover⟩, rfl⟩
    by_cases ht : isToday
    · right; intro hs; exact hlead ⟨ht, hs⟩
    · left; simpa using ht

/-! Claim theorems -/

/-- Claim C1. For every doctor, date and positive slot duration, the slot
generator tiles each configured window of that weekday from the window's
start in steps of the duration, including a candidate
`(start, start + duration)` iff `start + duration ≤ window_end`; with no
configured windows the result is empty with the distinct `no_schedule`
signal, which is not the signal of a fully booked day. -/
theorem C1_slot_generation (windows : List Window) (dur : Int) (hdur : 0 < dur)
    (isToday : Bool) (cutoff : Int) (fb : Except Unit (List (Int × Int))) :
    (∀ w ∈ windows, ∀ p : Int × Int,
        p ∈ tileWindow w.1 w.2 dur ↔
          ∃ k : Nat, p.1 = w.1 + k * dur ∧ p.2 = p.1 + dur ∧ p.2 ≤ w.2)
    ∧ (∀ p : Int × Int,
        p ∈ slotRanges dur windows ↔ ∃ w ∈ windows, p ∈ tileWindow w.1 w.2 dur)
    ∧ (windows = [] →
        _compute_free_slots_for_date windows dur isToday cutoff fb =
          ([], some ("no_schedule", "No clinic hours for this day")))
    ∧ ("no_schedule" ≠ "fully_booked" ∧ "no_schedule" ≠ "no_future_slots") := by
  refine ⟨fun w _ p => mem_tileWindow hdur w.1 w.2 p,
    fun p => mem_slotRanges dur windows p, ?_, by decide⟩
  rintro rfl
  rfl

/-- Witness for C1 at duration 30 and an empty window list. -/
theorem C1_slot_generation_witness :
    0 < (30 : Int) ∧
      _compute_free_slots_for_date [] 30 false 0 (.ok []) =
        ([], some ("no_schedule", "No clinic hours for this day")) :=
  ⟨by decide, (C1_slot_generation [] 30 (by decide) false 0 (.ok [])).2.2.1 rfl⟩

/-- Claim C2. A candidate is reported free iff it overlaps no busy interval
under half-open semantics (`candidate_start < busy_end` and
`candidate_end > busy_start`); and for the 11:00-13:00 window with
30-minute slots and busy 12:00-12:30, the free list is exactly
`[11:00, 11:30, 12:30]` in order (minutes `[660, 690, 750]`). -/
theorem C2_overlap_semantics :
    (∀ (s e : Int) (busy : List (Int × Int)),
        _overlaps s e busy = true ↔ ∃ b ∈ busy, s < b.2 ∧ e > b.1)
    ∧ (∀ (windows : List Window) (dur : Int) (isToday : Bool) (cutoff : Int)
        (busy : List (Int × Int)) (s : Int),
        s ∈ (_compute_free_slots_for_date windows dur isToday cutoff (.ok busy)).1 ↔
          ∃ r ∈ slotRanges dur windows, r.1 = s ∧
            ¬(isToday = true ∧ s < cutoff) ∧
            ¬∃ b ∈ busy, r.1 < b.2 ∧ r.2 > b.1)
    ∧ _compute_free_slots_for_date [((660 : Int), 780)] 30 false 0
        (.ok [(720, 750)]) = ([660, 690, 750], none) := by
  refine ⟨overlaps_iff, ?_, by decide⟩
  intro windows dur isToday cutoff busy s
  rw [compute_fst_ok, mem_freeList]
  constructor
  · rintro ⟨r, hr, rfl, hlead, hover⟩
    exact ⟨r, hr, rfl, hlead, fun h => by simp [(overlaps_iff r.1 r.2 busy).2 h] at hover⟩
  · rintro ⟨r, hr, rfl, hlead, hover⟩
    refine ⟨r, hr, rfl, hlead, ?_⟩
    rcases h : _overlaps r.1 r.2 busy with _ | _
    · rfl
    · exact absurd ((overlaps_iff r.1 r.2 busy).1 h) hover

/-- Claim C9. If a weekday's windows are non-overlapping and each window's
end strictly follows its start, then every generated candidate lies
entirely within exactly one configured window and no two candidates
overlap (half-open semantics). -/
theorem C9_candidate_invariants (windows : List Window) (dur : Int)
    (hdur : 0 < dur) (hpos : ∀ w ∈ windows, w.1 < w.2)
    (hdisj : windows.Pairwise fun a b => a.2 ≤ b.1 ∨ b.2 ≤ a.1) :
    (∀ p ∈ slotRanges dur windows, ∃ w ∈ windows, w.1 ≤ p.1 ∧ p.2 ≤ w.2)
    ∧ (∀ p ∈ slotRanges dur windows, ∀ w ∈ windows, ∀ w' ∈ windows,
        w.1 ≤ p.1 ∧ p.2 ≤ w.2 → w'.1 ≤ p.1 ∧ p.2 ≤ w'.2 → w = w')
    ∧ (slotRanges dur windows).Pairwise fun p q => ¬(p.1 < q.2 ∧ q.1 < p.2) := by
  have hsym : Symmetric fun a b : Window => a.2 ≤ b.1 ∨ b.2 ≤ a.1 :=
    fun a b h => h.symm
  refine ⟨?_, ?_, ?_⟩
  · intro p hp
    obtain ⟨w, hw, hpt⟩ := (mem_slotRanges dur windows p).1 hp
    obtain ⟨h1, h2, h3⟩ := tileWindow_bounds hdur hpt
    exact ⟨w, hw, h1, h3⟩
  · intro p hp w hw w' hw' hin hin'
    obtain ⟨wt, hwt, hpt⟩ := (mem_slotRanges dur windows p).1 hp
    obtain ⟨_, hlen, _⟩ := tileWindow_bounds hdur hpt
    by_contra hne
    rcases hdisj.forall hsym hw hw' hne with h | h
    · have : p.1 + dur ≤ p.1 := by
        calc p.1 + dur = p.2 := hlen.symm
        _ ≤ w.2 := hin.2
        _ ≤ w'.1 := h
        _ ≤ p.1 := hin'.1
      omega
    · have : p.1 + dur ≤ p.1 := by
        calc p.1 + dur = p.2 := hlen.symm
        _ ≤ w'.2 := hin'.2
        _ ≤ w.1 := h
        _ ≤ p.1 := hin.1
      omega
  · clear hpos
    induction windows with
    | nil => exact List.Pairwise.nil
    | cons w ws ih =>
      rw [List.pairwise_cons] at hdisj
      show (tileWindow w.1 w.2 dur ++ slotRanges dur ws).Pairwise _
      rw [List.pairwise_append]
      refine ⟨tileWindow_pairwise hdur w.1 w.2, ih hdisj.2, ?_⟩
      intro p hp q hq
      obtain ⟨w', hw', hqt⟩ := (mem_slotRanges dur ws q).1 hq
      obtain ⟨hp1, hp2, hp3⟩ := tileWindow_bounds hdur hp
      obtain ⟨hq1, hq2, hq3⟩ := tileWindow_bounds hdur hqt
      rcases hdisj.1 w' hw' with h | h
      · simp only [not_and, not_lt]
        intro _
        omega
      · simp only [not_and, not_lt]
        intro h1
        omega

/-- Witness for C9 on two disjoint windows tiled at 30 minutes. -/
theorem C9_candidate_invariants_witness :
    0 < (30 : Int) ∧
      (slotRanges 30 [((0 : Int), 60), (120, 180)]).Pairwise
        (fun p q => ¬(p.1 < q.2 ∧ q.1 < p.2)) :=
  ⟨by decide,
    (C9_candidate_invariants [((0 : Int), 60), (120, 180)] 30 (by decide)
      (by decide) (by decide)).2.2⟩

/-- `anyFutureCandidate` decides: some candidate is on a non-today date or
starts at/after the cutoff. -/
lemma anyFutureCandidate_iff (windows : List Window) (dur : Int) (isToday : Bool)
    (cutoff : Int) :
    anyFutureCandidate windows dur isToday cutoff = true ↔
      ∃ r ∈ slotRanges dur windows, isToday = false ∨ cutoff ≤ r.1 := by
  simp [anyFutureCandidate, Bool.or_eq_true, Bool.not_eq_true']

/-- The metadata of `_compute_free_slots_for_date` when candidates exist,
the query succeeded, and the free list came out empty. -/
lemma compute_snd_empty (windows : List Window) (dur : Int) (isToday : Bool)
    (cutoff : Int) (busy : List (Int × Int)) (hw : windows ≠ [])
    (hf : freeList windows dur isToday cutoff busy = []) :
    (_compute_free_slots_for_date windows dur isToday cutoff (.ok busy)).2 =
      some (if anyFutureCandidate windows dur isToday cutoff
            then "fully_booked" else "no_future_slots",
            "No available slots for the selected day") := by
  unfold _compute_free_slots_for_date
  rw [if_neg (by simpa using hw)]
  dsimp only
  rw [if_pos (by simpa using hf)]

/-- Claim C7, amended. When a single-date availability computation has
generated candidates, a successful free/busy query, and an empty free list,
it signals `no_future_slots` exactly when the date is today and every
candidate starts before the lead cutoff, and `fully_booked` exactly when
the date is not today or some candidate starts at/after the cutoff. -/
theorem C7_empty_day_signals (windows : List Window) (dur : Int)
    (isToday : Bool) (cutoff : Int) (busy : List (Int × Int))
    (hne : slotRanges dur windows ≠ [])
    (hempty : (_compute_free_slots_for_date windows dur isToday cutoff
                (.ok busy)).1 = []) :
    ((_compute_free_slots_for_date windows dur isToday cutoff (.ok busy)).2 =
        some ("no_future_slots", "No available slots for the selected day") ↔
      isToday = true ∧ ∀ r ∈ slotRanges dur windows, r.1 < cutoff)
    ∧ ((_compute_free_slots_for_date windows dur isToday cutoff (.ok busy)).2 =
        some ("fully_booked", "No available slots for the selected day") ↔
      isToday = false ∨ ∃ r ∈ slotRanges dur windows, cutoff ≤ r.1) := by
  have hw : windows ≠ [] := by
    rintro rfl
    exact hne rfl
  have hf : freeList windows dur isToday cutoff busy = [] := by
    rw [compute_fst_ok] at hempty
    exact hempty
  rw [compute_snd_empty windows dur isToday cutoff busy hw hf]
  obtain ⟨r0, hr0⟩ : ∃ r, r ∈ slotRanges dur windows := by
    cases h : slotRanges dur windows with
    | nil => exact absurd h hne
    | cons a l => exact ⟨a, h ▸ List.mem_cons_self a l⟩
  by_cases hfut : anyFutureCandidate windows dur isToday cutoff
  · rw [if_pos hfut]
    obtain ⟨r, hr, hcase⟩ := (anyFutureCandidate_iff windows dur isToday cutoff).1 hfut
    constructor
    · simp only [Option.some_inj, Prod.mk.injEq]
      constructor
      · rintro ⟨h, -⟩; exact absurd h (by decide)
      · rintro ⟨ht, hall⟩
        rcases hcase with h | h
        · rw [ht] at h; exact absurd h (by decide)
        · exact absurd h (not_le.mpr (hall r hr))
    · simp only [Option.some_inj, Prod.mk.injEq, true_and]
      constructor
      · intro _
        rcases hcase with h | h
        · exact Or.inl h
        · exact Or.inr ⟨r, hr, h⟩
      · intro _; trivial
  · rw [if_neg hfut]
    have hall : ∀ r ∈ slotRanges dur windows, ¬(isToday = false ∨ cutoff ≤ r.1) := by
      intro r hr hcon
      exact hfut ((anyFutureCandidate_iff windows dur isToday cutoff).2 ⟨r, hr, hcon⟩)
    have ht : isToday = true := by
      rcases Bool.eq_false_or_eq_true isToday with h | h
      · exact h
      · exact absurd (Or.inl h) (hall r0 hr0)
    constructor
    · simp only [Option.some_inj, Prod.mk.injEq, true_and]
      constructor
      · intro _
        exact ⟨ht, fun r hr => not_le.mp fun h => hall r hr (Or.inr h)⟩
      · intro _; trivial
    · simp only [Option.some_inj, Prod.mk.injEq]
      constructor
      · rintro ⟨h, -⟩; exact absurd h (by decide)
      · rintro (h | ⟨r, hr, h⟩)
        · exact absurd (Or.inl h) (hall r0 hr0)
        · exact absurd (Or.inr h) (hall r hr)

/-- Witness for C7 (amended): today, one window, cutoff after every
candidate, so the empty day is reported as `no_future_slots`. -/
theorem C7_empty_day_signals_witness :
    slotRanges 30 [((600 : Int), 660)] ≠ [] ∧
      (_compute_free_slots_for_date [((600 : Int), 660)] 30 true 10000 (.ok [])).1 = [] ∧
      (_compute_free_slots_for_date [((600 : Int), 660)] 30 true 10000 (.ok [])).2 =
        some ("no_future_slots", "No available slots for the selected day") :=
  ⟨by decide, by decide,
    (C7_empty_day_signals [((600 : Int), 660)] 30 true 10000 [] (by decide)
      (by decide)).1.mpr ⟨rfl, by decide⟩⟩

/-- Claim C7 as stated, counterexample. A day that is not today, with
one candidate (11:00, 10:00-11:00 window, 60-minute slots) starting before
the lead cutoff and busy: every candidate starts before the cutoff, yet the
code signals `fully_booked`, not "no future slots". -/
theorem C7_claim_counterexample :
    _compute_free_slots_for_date [((600 : Int), 660)] 60 false 10000
        (.ok [(600, 660)]) =
      ([], some ("fully_booked", "No available slots for the selected day"))
    ∧ slotRanges 60 [((600 : Int), 660)] = [(600, 660)]
    ∧ (600 : Int) < 10000 := by decide

/-- Every day emitted by the range loop with a failing free/busy oracle has
an empty slot list (and the range result carries no other signal). -/
lemma range_go_error (sched : Int → List Window) (dur : Int)
    (today nowLead : Int) (fb : Int → Except Unit (List (Int × Int)))
    (hfb : ∀ d : Int, fb d = Except.error ()) :
    ∀ (n : Nat) (d : Int),
      ∀ x ∈ availability_range_go sched dur today nowLead fb d n,
        x.2 = ([] : List Int) := by
  intro n
  induction n with
  | zero => intro d x hx; simp [availability_range_go] at hx
  | succ n ih =>
    intro d x hx
    simp only [availability_range_go, List.mem_cons] at hx
    rcases hx with rfl | hx
    · rw [hfb d]
      exact compute_fst_error _ _ _ _
    · exact ih (d + 1) x hx

/-- Claim C3, amended. For a single-date query, a calendar free/busy failure
propagates as the distinct `freebusy_error` warning code (different from
every empty-slots code); for a date-range query the per-day metadata is
discarded, so every day of a failed range is returned as a plain empty slot
list. -/
theorem C3_calendar_failure_propagation :
    (∀ (windows : List Window) (dur : Int) (isToday : Bool) (cutoff : Int),
        windows ≠ [] →
          (availability_tool_single windows dur isToday cutoff
              (.error ())).warning_code = some "freebusy_error" ∧
            (availability_tool_single windows dur isToday cutoff
              (.error ())).slots = [])
    ∧ ("freebusy_error" ≠ "no_schedule" ∧ "freebusy_error" ≠ "fully_booked" ∧
        "freebusy_error" ≠ "no_future_slots")
    ∧ (∀ (sched : Int → List Window) (startD endD dur today nowLead : Int)
        (fb : Int → Except Unit (List (Int × Int))),
        (∀ d : Int, fb d = Except.error ()) →
          ∀ x ∈ availability_tool_range sched startD endD dur today nowLead fb,
            x.2 = ([] : List Int)) := by
  refine ⟨?_, by decide, ?_⟩
  · intro windows dur isToday cutoff hw
    unfold availability_tool_single _compute_free_slots_for_date
    rw [if_neg (by simpa using hw)]
    exact ⟨rfl, rfl⟩
  · intro sched startD endD dur today nowLead fb hfb x hx
    exact range_go_error sched dur today nowLead fb hfb _ _ x hx

/-- Witness for C3 (amended) on a concrete one-window schedule. -/
theorem C3_calendar_failure_propagation_witness :
    (availability_tool_single [((600 : Int), 660)] 30 false 0
        (.error ())).warning_code = some "freebusy_error" :=
  (C3_calendar_failure_propagation.1 [((600 : Int), 660)] 30 false 0
    (by decide)).1

/-- Claim C3 as stated, counterexample. A one-day range query whose
free/busy query fails returns `[(day, [])]` — byte-for-byte the same result
as the same range with the day fully booked, with no distinct
"calendar unavailable" signal. -/
theorem C3_claim_counterexample :
    availability_tool_range (fun _ => [((600 : Int), 660)]) 0 0 60 5 0
        (fun _ => .error ()) = [(0, [])]
    ∧ availability_tool_range (fun _ => [((600 : Int), 660)]) 0 0 60 5 0
        (fun _ => .ok [(600, 660)]) = [(0, [])] := by decide

/-- `_within_schedule` decides window containment:
some window fully contains the interval. -/
lemma within_schedule_iff (windows : List Window) (s e : Int) :
    _within_schedule windows s e = true ↔
      ∃ w ∈ windows, w.1 ≤ s ∧ e ≤ w.2 := by
  simp [_within_schedule]

/-- Python `in` on the slot list: `List.contains` decides membership. -/
lemma contains_iff_mem_int (l : List Int) (a : Int) :
    l.contains a = true ↔ a ∈ l := by
  simp [List.contains_iff_exists_mem_beq, beq_iff_eq]

/-- Claim C4 as stated, counterexample. Booking with a failing
preflight free/busy query returns the same `Conflict` ("no longer
available") result as booking over a genuinely busy interval — there is no
distinct provider-unavailable outcome for the preflight. -/
theorem C4_claim_counterexample :
    appointment_book_tool true [((600 : Int), 700)] 600 660 "p@x.co" 0 false
        (.error ()) (.ok []) (.ok "evt1") = .errConflict
    ∧ appointment_book_tool true [((600 : Int), 700)] 600 660 "p@x.co" 0 false
        (.ok [(600, 660)]) (.ok []) (.ok "evt1") = .errConflict := by decide

/-- Claim C4, amended. A provider failure of the preflight free/busy check
is conservatively folded into the business-rule conflict: the booking
returns the `Conflict` ("no longer available") error exactly when the
preflight query fails or the fresh query over `[start, end]` shows an
overlap. -/
theorem C4_preflight_conservative (windows : List Window) (startM endM : Int)
    (email : String) (cutoff : Int) (isToday : Bool)
    (fbPre fbGuard : Except Unit (List (Int × Int)))
    (insert : Except String String) (hord : startM < endM)
    (hemail : validEmail email = true) (hlead : cutoff ≤ startM)
    (hsched : _within_schedule windows startM endM = true) :
    appointment_book_tool true windows startM endM email cutoff isToday
        fbPre fbGuard insert = .errConflict ↔
      (fbPre = .error () ∨
        ∃ busy, fbPre = .ok busy ∧ _overlaps startM endM busy = true) := by
  unfold appointment_book_tool
  rw [if_neg (by simp), if_neg (not_le.mpr hord), if_neg (by simp [hemail]),
    if_neg (not_lt.mpr hlead), if_neg (by simp [hsched])]
  by_cases hc : _slot_conflicts_with_calendar fbPre startM endM
  · rw [if_pos hc]
    simp only [true_iff]
    unfold _slot_conflicts_with_calendar at hc
    cases fbPre with
    | error u => exact Or.inl (by cases u; rfl)
    | ok busy => exact Or.inr ⟨busy, rfl, hc⟩
  · rw [if_neg hc]
    constructor
    · intro h
      by_cases hg : ((_compute_free_slots_for_date windows (endM - startM)
          isToday cutoff fbGuard).1.contains startM = true)
      · rw [if_neg (by rw [hg]; decide)] at h
        cases insert with
        | error e => exact absurd h (by simp)
        | ok i => exact absurd h (by simp)
      · have hgf : ((_compute_free_slots_for_date windows (endM - startM)
            isToday cutoff fbGuard).1.contains startM) = false := by
          rcases h' : ((_compute_free_slots_for_date windows (endM - startM)
              isToday cutoff fbGuard).1.contains startM) with _ | _
          · rfl
          · exact absurd h' hg
        rw [if_pos (by rw [hgf]; decide)] at h
        exact absurd h (by simp)
    · rintro (h | ⟨busy, h, hover⟩)
      · exact absurd (by rw [h]; rfl) hc
      · rw [h] at hc
        exact absurd hover (by simpa [_slot_conflicts_with_calendar] using hc)

/-- Witness for C4 (amended): a failing preflight yields the Conflict
error. -/
theorem C4_preflight_conservative_witness :
    (600 : Int) < 660 ∧ validEmail "p@x.co" = true ∧ (0 : Int) ≤ 600 ∧
      _within_schedule [((600 : Int), 700)] 600 660 = true ∧
      appointment_book_tool true [((600 : Int), 700)] 600 660 "p@x.co" 0 false
        (.error ()) (.ok []) (.ok "e") = .errConflict :=
  ⟨by decide, by decide, by decide, by decide,
    (C4_preflight_conservative [((600 : Int), 700)] 600 660 "p@x.co" 0 false
      (.error ()) (.ok []) (.ok "e") (by decide) (by decide) (by decide)
      (by decide)).mpr (Or.inl rfl)⟩

/-- Claim C5. A booking request that passes the earlier checks but whose
interval is not fully contained within any configured window of the start
date's weekday fails with the "outside clinic hours" error, for every
possible calendar state (both free/busy oracles and the insert outcome are
universally quantified, and the result does not consult them). -/
theorem C5_outside_hours (windows : List Window) (startM endM : Int)
    (email : String) (cutoff : Int) (isToday : Bool)
    (fbPre fbGuard : Except Unit (List (Int × Int)))
    (insert : Except String String) (hord : startM < endM)
    (hemail : validEmail email = true) (hlead : cutoff ≤ startM)
    (hout : ¬∃ w ∈ windows, w.1 ≤ startM ∧ endM ≤ w.2) :
    appointment_book_tool true windows startM endM email cutoff isToday
      fbPre fbGuard insert = .errOutsideHours := by
  have hws : _within_schedule windows startM endM = false := by
    rcases h : _within_schedule windows startM endM with _ | _
    · rfl
    · exact absurd ((within_schedule_iff windows startM endM).1 h) hout
  unfold appointment_book_tool
  rw [if_neg (by simp), if_neg (not_le.mpr hord), if_neg (by simp [hemail]),
    if_neg (not_lt.mpr hlead), if_pos (by simp [hws])]

/-- Witness for C5: booking 10:00-11:00 against a doctor whose only window
that weekday is 00:00-00:30. -/
theorem C5_outside_hours_witness :
    (600 : Int) < 660 ∧ validEmail "p@x.co" = true ∧ (0 : Int) ≤ 600 ∧
      appointment_book_tool true [((0 : Int), 30)] 600 660 "p@x.co" 0 false
        (.ok []) (.ok []) (.ok "e") = .errOutsideHours :=
  ⟨by decide, by decide, by decide,
    C5_outside_hours [((0 : Int), 30)] 600 660 "p@x.co" 0 false (.ok [])
      (.ok []) (.ok "e") (by decide) (by decide) (by decide) (by decide)⟩

/-- Claim C6. A booking request that passes doctor lookup, time-order, email,
lead-time, schedule containment and the preflight conflict check is then
checked against the recomputed free-slot list of the start date at
granularity `end - start`: it is rejected with the "not an available slot"
error iff the requested start is absent from that list, and otherwise
proceeds to the calendar insert. -/
theorem C6_recompute_guard (windows : List Window) (startM endM : Int)
    (email : String) (cutoff : Int) (isToday : Bool)
    (busyPre : List (Int × Int)) (fbGuard : Except Unit (List (Int × Int)))
    (insert : Except String String) (hord : startM < endM)
    (hemail : validEmail email = true) (hlead : cutoff ≤ startM)
    (hin : _within_schedule windows startM endM = true)
    (hpre : _overlaps startM endM busyPre = false) :
    (startM ∉ (_compute_free_slots_for_date windows (endM - startM) isToday
        cutoff fbGuard).1 →
      appointment_book_tool true windows startM endM email cutoff isToday
        (.ok busyPre) fbGuard insert = .errNotListedSlot)
    ∧ (startM ∈ (_compute_free_slots_for_date windows (endM - startM) isToday
        cutoff fbGuard).1 →
      (∀ e : String, insert = .error e →
        appointment_book_tool true windows startM endM email cutoff isToday
          (.ok busyPre) fbGuard insert = .errInsert e)
      ∧ (∀ i : String, insert = .ok i →
        appointment_book_tool true windows startM endM email cutoff isToday
          (.ok busyPre) fbGuard insert = .booked i)) := by
  have hbase : ∀ r : BookResult,
      appointment_book_tool true windows startM endM email cutoff isToday
          (.ok busyPre) fbGuard insert = r ↔
        (if !((_compute_free_slots_for_date windows (endM - startM) isToday
            cutoff fbGuard).1.contains startM) then BookResult.errNotListedSlot
         else match insert with
           | .error e => BookResult.errInsert e
           | .ok i => BookResult.booked i) = r := by
    intro r
    unfold appointment_book_tool
    rw [if_neg (by simp), if_neg (not_le.mpr hord), if_neg (by simp [hemail]),
      if_neg (not_lt.mpr hlead), if_neg (by simp [hin]),
      if_neg (by simp [_slot_conflicts_with_calendar, hpre])]
  constructor
  · intro hmem
    have hgf : ((_compute_free_slots_for_date windows (endM - startM) isToday
        cutoff fbGuard).1.contains startM) = false := by
      rcases h' : ((_compute_free_slots_for_date windows (endM - startM)
          isToday cutoff fbGuard).1.contains startM) with _ | _
      · rfl
      · exact absurd ((contains_iff_mem_int _ _).1 h') hmem
    rw [hbase]
    rw [if_pos (by rw [hgf]; decide)]
  · intro hmem
    have hcont : ((_compute_free_slots_for_date windows (endM - startM) isToday
        cutoff fbGuard).1.contains startM) = true :=
      (contains_iff_mem_int _ _).2 hmem
    constructor
    · rintro e rfl
      rw [hbase]
      rw [if_neg (by rw [hcont]; decide)]
    · rintro i rfl
      rw [hbase]
      rw [if_neg (by rw [hcont]; decide)]

/-- Witness for C6: a 45-minute request at 10:30 in a 10:00-11:40 window is
not in the 45-minute tiling `[10:00, 10:45]` and is rejected. -/
theorem C6_recompute_guard_witness :
    (630 : Int) < 675 ∧
      (630 : Int) ∉ (_compute_free_slots_for_date [((600 : Int), 700)]
        (675 - 630) false 0 (.ok [])).1 ∧
      appointment_book_tool true [((600 : Int), 700)] 630 675 "p@x.co" 0 false
        (.ok []) (.ok []) (.ok "e") = .errNotListedSlot :=
  ⟨by decide, by decide,
    (C6_recompute_guard [((600 : Int), 700)] 630 675 "p@x.co" 0 false []
      (.ok []) (.ok "e") (by decide) (by decide) (by decide) (by decide)
      (by decide)).1 (by decide)⟩

/-! Helper lemmas: ownership matching -/

/-- The character-by-character matcher decides list prefixes. -/
lemma leadsWith_iff (n : List Char) :
    ∀ l : List Char, subListB.leadsWith n l = true ↔ n <+: l := by
  induction n with
  | nil => intro l; simp [subListB.leadsWith]
  | cons a as ih =>
    intro l
    cases l with
    | nil =>
      simp only [subListB.leadsWith]
      constructor
      · intro h; cases h
      · rintro ⟨t, h⟩; cases h
    | cons b bs =>
      simp [subListB.leadsWith, Bool.and_eq_true, beq_iff_eq, ih bs]

/-- `subListB` decides Python's substring test: a contiguous occurrence
(`∃ s t, s ++ n ++ t = hay`). -/
lemma subListB_iff (n : List Char) :
    ∀ hay : List Char, subListB n hay = true ↔ n <:+: hay := by
  intro hay
  induction hay with
  | nil =>
    simp only [subListB, List.isEmpty_iff]
    constructor
    · rintro rfl
      exact ⟨[], [], rfl⟩
    · rintro ⟨s, t, hst⟩
      rcases List.append_eq_nil.1 hst with ⟨hsn, htn⟩
      rcases List.append_eq_nil.1 hsn with ⟨-, hn⟩
      exact hn
  | cons c cs ih =>
    simp only [subListB, Bool.or_eq_true, leadsWith_iff, ih]
    constructor
    · rintro (⟨t, ht⟩ | ⟨s, t, hst⟩)
      · exact ⟨[], t, by simpa using ht⟩
      · exact ⟨c :: s, t, by simp [← hst]⟩
    · rintro ⟨s, t, hst⟩
      cases s with
      | nil => exact Or.inl ⟨t, by simpa using hst⟩
      | cons d ds =>
        right
        simp only [List.cons_append, List.cons.injEq] at hst
        exact ⟨ds, t, hst.2⟩

/-- Claim C10 as stated, counterexample. The stored attendee email
`"A@B.C"` is neither exactly equal to the normalized patient email
`"a@b.c"` nor a substring of the (empty) description, so the claim's
predicate says "not owned" — but the implementation also lowercases and
trims the attendee side and reports the patient as owner. -/
theorem C10_claim_counterexample :
    _event_contains_patient
        { id := "e1", summary := "s", description := "", attendees := ["A@B.C"],
          start := 0, stop := 30 } "a@b.c" = true
    ∧ ¬claimedOwnership
        { id := "e1", summary := "s", description := "", attendees := ["A@B.C"],
          start := 0, stop := 30 } "a@b.c" := by
  constructor
  · decide
  · rintro ⟨-, h | h⟩
    · revert h
      decide
    · obtain ⟨s, t, hst⟩ := h
      have hlen := congrArg List.length hst
      simp only [List.length_append] at hlen
      have h5 : (normEmail "a@b.c").length = 5 := by decide
      simp [h5] at hlen

/-- Claim C10, amended. The ownership predicate holds iff the patient email
is non-empty and either its lowercased-trimmed form equals some attendee's
lowercased-trimmed email, or it occurs as a substring of the lowercased
description; for an empty patient email it is false for every event, so
cancel (once the event is fetched) and reschedule (once its validations
pass) with an empty patient email fail as unauthorized. -/
theorem C10_ownership (ev : CalEvent) (patientEmail : String) :
    (_event_contains_patient ev patientEmail = true ↔
      patientEmail ≠ "" ∧
        ((∃ a ∈ ev.attendees, normEmail a = normEmail patientEmail) ∨
          normEmail patientEmail <:+: ev.description.toList.map Char.toLower))
    ∧ _event_contains_patient ev "" = false
    ∧ (∀ del : Except Unit Unit,
        cancel_appointment_tool true (.ok ev) "" del = .errUnauthorized)
    ∧ (∀ (windows : List Window) (eventId : String) (startM endM cutoff : Int)
        (fb : Except Unit (List (Int × Int))),
        cutoff ≤ startM → _within_schedule windows startM endM = true →
          _slot_conflicts_with_calendar fb startM endM = false →
          reschedule_tool true windows eventId startM endM "" cutoff fb
            (.ok ev) = .errUnauthorized) := by
  have hempty : _event_contains_patient ev "" = false := by
    simp [_event_contains_patient]
  refine ⟨?_, hempty, ?_, ?_⟩
  · unfold _event_contains_patient
    by_cases hpe : patientEmail = ""
    · simp [hpe]
    · rw [if_neg hpe]
      by_cases ha : ev.attendees.any fun a => normEmail a == normEmail patientEmail
      · rw [if_pos ha]
        simp only [List.any_eq_true, beq_iff_eq] at ha
        simp only [true_iff]
        exact ⟨hpe, Or.inl ha⟩
      · rw [if_neg ha]
        simp only [List.any_eq_true, beq_iff_eq] at ha
        push_neg at ha
        rw [subListB_iff]
        constructor
        · intro h
          exact ⟨hpe, Or.inr h⟩
        · rintro ⟨-, h | h⟩
          · obtain ⟨a, hmem, heq⟩ := h
            exact absurd heq (ha a hmem)
          · exact h
  · intro del
    unfold cancel_appointment_tool
    rw [if_neg (by decide)]
    dsimp only
    rw [hempty]
    rfl
  · intro windows eventId startM endM cutoff fb hlead hsched hconf
    unfold reschedule_tool
    rw [if_neg (by simp), if_neg (not_lt.mpr hlead), if_neg (by simp [hsched]),
      if_neg (by simp [hconf])]
    dsimp only
    rw [hempty]
    rfl

/-- Witness for C10 (amended): cancelling with an empty patient email on a
fetched event is rejected as unauthorized. -/
theorem C10_ownership_witness :
    cancel_appointment_tool true
        (.ok { id := "e1", summary := "s", description := "", attendees := [],
               start := 0, stop := 30 }) "" (.ok ()) = .errUnauthorized :=
  (C10_ownership
    { id := "e1", summary := "s", description := "", attendees := [],
      start := 0, stop := 30 } "").2.2.1 (.ok ())

/-- Claim C8. Reschedule re-runs the booking validations (lead time, window
containment, fresh conflict check, each gating with its own error) on the
new interval, checks ownership, and on success issues an update for the
same event id whose body is the fetched event with only its start/end
replaced (all other fields preserved). -/
theorem C8_reschedule_validation (windows : List Window) (eventId : String)
    (startM endM : Int) (email : String) (cutoff : Int)
    (fb : Except Unit (List (Int × Int))) (ev : CalEvent) :
    (cutoff ≤ startM → _within_schedule windows startM endM = true →
      _slot_conflicts_with_calendar fb startM endM = false →
      _event_contains_patient ev email = true →
      reschedule_tool true windows eventId startM endM email cutoff fb
          (.ok ev) =
        .rescheduled eventId { ev with start := startM, stop := endM })
    ∧ (({ ev with start := startM, stop := endM } : CalEvent).id = ev.id
      ∧ ({ ev with start := startM, stop := endM } : CalEvent).summary = ev.summary
      ∧ ({ ev with start := startM, stop := endM } : CalEvent).description = ev.description
      ∧ ({ ev with start := startM, stop := endM } : CalEvent).attendees = ev.attendees
      ∧ ({ ev with start := startM, stop := endM } : CalEvent).start = startM
      ∧ ({ ev with start := startM, stop := endM } : CalEvent).stop = endM)
    ∧ (startM < cutoff →
        reschedule_tool true windows eventId startM endM email cutoff fb
          (.ok ev) = .errLeadTime)
    ∧ (cutoff ≤ startM → _within_schedule windows startM endM = false →
        reschedule_tool true windows eventId startM endM email cutoff fb
          (.ok ev) = .errOutsideHours)
    ∧ (cutoff ≤ startM → _within_schedule windows startM endM = true →
        _slot_conflicts_with_calendar fb startM endM = true →
        reschedule_tool true windows eventId startM endM email cutoff fb
          (.ok ev) = .errConflict)
    ∧ (cutoff ≤ startM → _within_schedule windows startM endM = true →
        _slot_conflicts_with_calendar fb startM endM = false →
        _event_contains_patient ev email = false →
        reschedule_tool true windows eventId startM endM email cutoff fb
          (.ok ev) = .errUnauthorized) := by
  refine ⟨?_, ⟨rfl, rfl, rfl, rfl, rfl, rfl⟩, ?_, ?_, ?_, ?_⟩
  · intro hlead hsched hconf hown
    unfold reschedule_tool
    rw [if_neg (by simp), if_neg (not_lt.mpr hlead), if_neg (by simp [hsched]),
      if_neg (by simp [hconf])]
    dsimp only
    rw [hown]
    rfl
  · intro hlead
    unfold reschedule_tool
    rw [if_neg (by simp), if_pos hlead]
  · intro hlead hsched
    unfold reschedule_tool
    rw [if_neg (by simp), if_neg (not_lt.mpr hlead), if_pos (by simp [hsched])]
  · intro hlead hsched hconf
    unfold reschedule_tool
    rw [if_neg (by simp), if_neg (not_lt.mpr hlead), if_neg (by simp [hsched]),
      if_pos (by simp [hconf])]
  · intro hlead hsched hconf hown
    unfold reschedule_tool
    rw [if_neg (by simp), if_neg (not_lt.mpr hlead), if_neg (by simp [hsched]),
      if_neg (by simp [hconf])]
    dsimp only
    rw [hown]
    rfl

/-- Witness for C8: a concrete reschedule that passes all validations and
updates only start/end of the same event id. -/
theorem C8_reschedule_validation_witness :
    (0 : Int) ≤ 600 ∧
      reschedule_tool true [((600 : Int), 700)] "ev9" 600 660 "a@b.c" 0
          (.ok [])
          (.ok { id := "ev9", summary := "s", description := "",
                 attendees := ["a@b.c"], start := 100, stop := 130 }) =
        .rescheduled "ev9"
          { id := "ev9", summary := "s", description := "",
            attendees := ["a@b.c"], start := 600, stop := 660 } := by
  refine ⟨by decide, ?_⟩
  exact (C8_reschedule_validation [((600 : Int), 700)] "ev9" 600 660 "a@b.c" 0
    (.ok [])
    { id := "ev9", summary := "s", description := "", attendees := ["a@b.c"],
      start := 100, stop := 130 }).1 (by decide) (by decide) (by decide)
    (by decide)

end MedBridge
